import Mathlib

/-!
Verification of the notocbot debt-tracking core: a shallow embedding of
the debtor-resolution, fuzzy-matching, ledger and deadline services
(src/services/debtor_service.py, debt_service.py, deadline_service.py,
src/database/models.py) together with proofs of the specified properties.

Modelling conventions:
* The database is a record of four row lists (users, debtors, aliases,
  transactions); SQLAlchemy queries become list filters/joins in row order.
* Monetary amounts (SQL Numeric, Python Decimal) are modelled as exact
  rationals; timestamps (created_at, due_date, "now") as integers, with
  a timedelta of d days modelled as adding d.
* scalar_one_or_none is modelled as an Except value: zero rows give none,
  one row gives that row, several rows give the MultipleResultsFound error.
* SQL ILIKE (as emitted by SQLAlchemy Column.ilike with the query string
  as the pattern) is modelled as case-insensitive LIKE pattern matching
  with the wildcards percent (any substring) and underscore (any single
  character); case folding is modelled on ASCII.
* The thefuzz scorers are modelled on their rapidfuzz backend:
  fuzz.ratio is the normalized indel similarity 200*lcs/(|a|+|b|) rounded
  half-to-even as Python round does; fuzz.partial-ratio is the best
  fuzz.ratio of the shorter string against the sliding windows of its
  length in the longer string; fuzz.token-sort-ratio lowercases, replaces
  non-alphanumeric characters by spaces, splits, sorts the tokens and
  takes fuzz.ratio of the rejoined strings.
* Python list.sort is stable; it is modelled by insertion sort, which is
  stable for the same relation, hence extensionally equal.
-/

deriving instance DecidableEq for Except

namespace Notoc

/-- Transaction kind; an SQL enum restricted to these two values. -/
inductive TxType where
  | DEBT : TxType
  | CREDIT : TxType
deriving DecidableEq, Repr

/-- Row of the users table (models.py User). -/
structure User where
  id : Int
  telegram_id : Int
  full_name : String
deriving DecidableEq, Repr

/-- Row of the debtors table (models.py Debtor, plus the telegram_id
column added by migration and used by debtor_service). -/
structure Debtor where
  id : Int
  user_id : Int
  name : String
  telegram_id : Option Int := none
deriving DecidableEq, Repr

/-- Row of the aliases table (models.py Alias). -/
structure Alias where
  id : Int
  debtor_id : Int
  alias_name : String
deriving DecidableEq, Repr

/-- Row of the transactions table (models.py Transaction, plus the
due_date column added by migration d9e5f0a1b2c3). -/
structure Transaction where
  id : Int
  debtor_id : Int
  amount : Rat
  type : TxType
  note : Option String := none
  group_id : Option Int := none
  created_at : Int := 0
  due_date : Option Int := none
deriving DecidableEq, Repr

/-- The database state: the four tables as row lists. -/
structure DB where
  users : List User := []
  debtors : List Debtor := []
  aliases : List Alias := []
  transactions : List Transaction := []
deriving DecidableEq, Repr

/-- Errors raised by the persistence layer that the services do not
catch; scalar_one_or_none raises MultipleResultsFound on several rows. -/
inductive DBError where
  | multipleResultsFound : DBError
deriving DecidableEq, Repr

/-- SQLAlchemy Result.scalar_one_or_none: none for zero rows, the row for
exactly one, MultipleResultsFound for several. -/
def scalarOneOrNone : List α → Except DBError (Option α)
  | [] => Except.ok none
  | [a] => Except.ok (some a)
  | _ :: _ :: _ => Except.error DBError.multipleResultsFound

/-- Python str.lower on a string, as a character list (ASCII folding). -/
def lowerL (s : String) : List Char := s.toList.map Char.toLower

/-- Python str.strip: remove leading and trailing whitespace. -/
def trimL (cs : List Char) : List Char :=
  ((cs.dropWhile Char.isWhitespace).reverse.dropWhile Char.isWhitespace).reverse

/-- SQL LIKE pattern matching over already-lowercased character lists:
the percent wildcard matches any (possibly empty) substring, underscore
matches exactly one character, anything else matches itself. -/
def likeMatchL : List Char → List Char → Bool
  | [], s => s.isEmpty
  | p :: ps, s =>
    if p = '%' then (List.tails s).any (fun t => likeMatchL ps t)
    else
      match s with
      | [] => false
      | c :: cs => (p = '_' || p == c) && likeMatchL ps cs

/-- SQLAlchemy Column.ilike(pattern): case-insensitive LIKE of the column
value against the pattern. -/
def ilike (value pattern : String) : Bool :=
  likeMatchL (lowerL pattern) (lowerL value)

/-- A LIKE pattern matches any string equal to it (so a case-insensitive
equal value always ILIKE-matches). -/
theorem likeMatchL_self : ∀ l : List Char, likeMatchL l l = true := by
  intro l
  induction l with
  | nil => rfl
  | cons p ps ih =>
    by_cases hp : p = '%'
    · subst hp
      have hstep : likeMatchL ('%' :: ps) ('%' :: ps) =
          (List.tails ('%' :: ps)).any (fun t => likeMatchL ps t) := by
        simp [likeMatchL]
      rw [hstep, List.any_eq_true]
      refine ⟨ps, ?_, ih⟩
      simp [List.mem_tails]
    · simp only [likeMatchL, if_neg hp]
      simp [ih]

/-- On wildcard-free patterns, LIKE matching is plain list equality. -/
theorem likeMatchL_no_wildcards {p : List Char} (h1 : '%' ∉ p) (h2 : '_' ∉ p) :
    ∀ s : List Char, likeMatchL p s = true ↔ p = s := by
  induction p with
  | nil =>
    intro s
    cases s <;> simp [likeMatchL]
  | cons c cs ih =>
    intro s
    have hc1 : c ≠ '%' := fun h => h1 (h ▸ List.mem_cons_self c cs)
    have hc2 : c ≠ '_' := fun h => h2 (h ▸ List.mem_cons_self c cs)
    have h1' : '%' ∉ cs := fun h => h1 (List.mem_cons_of_mem c h)
    have h2' : '_' ∉ cs := fun h => h2 (List.mem_cons_of_mem c h)
    cases s with
    | nil => simp [likeMatchL, if_neg hc1]
    | cons d ds =>
      simp only [likeMatchL, if_neg hc1, Bool.and_eq_true, Bool.or_eq_true]
      constructor
      · rintro ⟨hcd, hrest⟩
        rcases hcd with h | h
        · exact absurd (by exact decide_eq_true_eq.mp h) hc2
        · have : c = d := by simpa using h
          have : cs = ds := (ih h1' h2' ds).mp hrest
          simp_all
      · intro h
        have hcd : c = d ∧ cs = ds := by
          constructor <;> [exact (List.cons.injEq c cs d ds ▸ h).1;
            exact (List.cons.injEq c cs d ds ▸ h).2]
        refine ⟨Or.inr ?_, (ih h1' h2' ds).mpr hcd.2⟩
        simp [hcd.1]

/-- Python round: round half to even, applied to the exact rational
num/den (den positive). -/
def pyRound (num den : Nat) : Nat :=
  let f := num / den
  let r := num % den
  if 2 * r < den then f
  else if den < 2 * r then f + 1
  else if f % 2 = 0 then f else f + 1

/-- Helper for the longest common subsequence: recursion over the second
list with the fixed head a of the first and the recursive scorer f for
the tail of the first list. -/
def lcsGo (a : Char) (f : List Char → Nat) : List Char → Nat
  | [] => 0
  | b :: bs => if a = b then f bs + 1 else max (lcsGo a f bs) (f (b :: bs))

/-- Longest common subsequence length of two character lists. -/
def lcsL : List Char → List Char → Nat
  | [], _ => 0
  | a :: as, l2 => lcsGo a (fun l => lcsL as l) l2

/-- thefuzz fuzz.ratio (rapidfuzz backend): normalized indel similarity
of the two strings, scaled to 0..100 and rounded as Python round does.
The indel distance is len1+len2-2*lcs, so the similarity is
200*lcs/(len1+len2). -/
def ratioL (a b : List Char) : Nat :=
  if a.length + b.length = 0 then 100
  else pyRound (200 * lcsL a b) (a.length + b.length)

/-- thefuzz fuzz.partial-ratio (rapidfuzz backend): the best fuzz.ratio
of the shorter string against the windows of its own length slid over
the longer string. -/
def slideRatioL (a b : List Char) : Nat :=
  let s := if a.length ≤ b.length then a else b
  let l := if a.length ≤ b.length then b else a
  let m := s.length
  ((List.range (l.length - m + 1)).map
    (fun i => ratioL s ((l.drop i).take m))).foldl max 0

/-- Tokenizer of rapidfuzz default-process followed by split: lowercase,
treat every non-alphanumeric character as a separator, drop empty
tokens. cur accumulates the current token in reverse. -/
def tokensAux : List Char → List Char → List (List Char)
  | [], cur => if cur.isEmpty then [] else [cur.reverse]
  | c :: cs, cur =>
    if c.isAlphanum then tokensAux cs (c.toLower :: cur)
    else if cur.isEmpty then tokensAux cs cur
    else cur.reverse :: tokensAux cs []

/-- Tokens of a string under rapidfuzz default-process. -/
def tokenize (cs : List Char) : List (List Char) := tokensAux cs []

/-- Code-point lexicographic comparison of character lists, as Python
sorted uses on strings. -/
def charListLeB : List Char → List Char → Bool
  | [], _ => true
  | _ :: _, [] => false
  | a :: as, b :: bs => if a = b then charListLeB as bs else decide (a < b)

/-- The lexicographic order as a decidable relation for sorting. -/
def charListLe (a b : List Char) : Prop := charListLeB a b = true

instance : DecidableRel charListLe := fun a b => by
  unfold charListLe
  infer_instance

/-- thefuzz fuzz.token-sort-ratio: default-process both strings, sort
the tokens, rejoin with single spaces, then fuzz.ratio. -/
def tokenSortRatioL (a b : List Char) : Nat :=
  let ja := List.intercalate [' '] (List.insertionSort charListLe (tokenize a))
  let jb := List.intercalate [' '] (List.insertionSort charListLe (tokenize b))
  ratioL ja jb

/-- The score debtor_service computes for one (query, candidate) pair:
the maximum of fuzz.ratio, fuzz.partial-ratio and fuzz.token-sort-ratio
(debtor_service.py lines 155-160 and 314-317). -/
def bestScore3 (q c : List Char) : Nat :=
  max (max (ratioL q c) (slideRatioL q c)) (tokenSortRatioL q c)

/-! ### Ledger engine (debt_service.py) -/

/-- The transactions of one debtor: the rows matched by
Transaction.debtor_id == debtor_id. -/
def txsOf (db : DB) (debtor_id : Int) : List Transaction :=
  db.transactions.filter (fun t => t.debtor_id == debtor_id)

/-- The signed contribution of a transaction to a balance: the CASE
expression of get_balance (DEBT counts positively, CREDIT negatively;
the enum admits no other value, so the else 0 arm is dead). -/
def signedAmount (t : Transaction) : Rat :=
  match t.type with
  | TxType.DEBT => t.amount
  | TxType.CREDIT => -t.amount

/-- SQL SUM over the CASE expression: NULL (none) when there are no
rows, otherwise the fold of the signed amounts. -/
def sqlSumSigned (ts : List Transaction) : Option Rat :=
  match ts with
  | [] => none
  | _ :: _ => some (ts.foldl (fun acc t => acc + signedAmount t) 0)

/-- debt_service.get_balance: the aggregate sum of signed amounts over
the debtor's transactions; a NULL sum (no rows) collapses to 0 via
the trailing or-default. -/
def get_balance (db : DB) (debtor_id : Int) : Rat :=
  (sqlSumSigned (txsOf db debtor_id)).getD 0

/-- debt_service.add_transaction: unconditionally inserts one new
transaction row; the primary key and creation timestamp are assigned by
the database at flush time and are passed in here as newId/now. The
due_date column starts NULL. Returns the new row and the new state. -/
def add_transaction (db : DB) (debtor_id : Int) (amount : Rat)
    (transaction_type : TxType) (note : Option String)
    (group_id : Option Int) (newId : Int) (now : Int) :
    Transaction × DB :=
  let t : Transaction :=
    { id := newId, debtor_id := debtor_id, amount := amount,
      type := transaction_type, note := note, group_id := group_id,
      created_at := now, due_date := none }
  (t, { db with transactions := db.transactions ++ [t] })

/-- Descending-balance comparison used to model the ORDER BY balance
DESC of get_all_debtors_balance. -/
def balGe (a b : String × Int × Rat) : Prop := b.2.2 ≤ a.2.2

instance : DecidableRel balGe := fun a b => by
  unfold balGe
  infer_instance

instance : IsTotal (String × Int × Rat) balGe :=
  ⟨fun a b => (le_total b.2.2 a.2.2).imp id id⟩

instance : IsTrans (String × Int × Rat) balGe :=
  ⟨fun _ _ _ h1 h2 => le_trans h2 h1⟩

/-- debt_service.get_all_debtors_balance: inner join of debtors with
their transactions restricted to the user, grouped by debtor, keeping
groups whose signed sum is non-zero (HAVING), ordered by balance
descending. A debtor with no transactions produces no join row and
hence no group. -/
def get_all_debtors_balance (db : DB) (user_id : Int) :
    List (String × Int × Rat) :=
  let rows := (db.debtors.filter (fun d => d.user_id == user_id)).filterMap
    (fun d =>
      match sqlSumSigned (txsOf db d.id) with
      | none => none
      | some b => if b = 0 then none else some (d.name, d.id, b))
  List.insertionSort balGe rows

/-- debt_service.get_transaction_with_owner_check: the transaction rows
joined with debtors on Transaction.debtor_id == Debtor.id, filtered by
transaction id and owning user. -/
def txOwnerRows (db : DB) (user_id : Int) (transaction_id : Int) :
    List Transaction :=
  (db.transactions.filter (fun t => t.id == transaction_id)).flatMap
    (fun t => (db.debtors.filter
      (fun d => t.debtor_id == d.id && d.user_id == user_id)).map
      (fun _ => t))

/-- debt_service.get_transaction_with_owner_check as the service returns
it: scalar_one_or_none over the ownership join. -/
def get_transaction_with_owner_check (db : DB) (user_id : Int)
    (transaction_id : Int) : Except DBError (Option Transaction) :=
  scalarOneOrNone (txOwnerRows db user_id transaction_id)

/-- debt_service.delete_transaction: ownership-checked delete of a
single transaction row; returns False and leaves the state unchanged
when the ownership lookup finds nothing. -/
def delete_transaction (db : DB) (user_id : Int) (transaction_id : Int) :
    Except DBError (Bool × DB) := do
  let t? ← get_transaction_with_owner_check db user_id transaction_id
  match t? with
  | none => return (false, db)
  | some t =>
    return (true,
      { db with transactions :=
          db.transactions.filter (fun u => ¬ u.id = t.id) })

/-- debt_service.delete_debtor_and_history: ownership-checked delete of
a debtor row; the ORM cascade also removes the debtor's aliases and
transactions. Returns False and leaves the state unchanged when the
lookup finds nothing. -/
def delete_debtor_and_history (db : DB) (user_id : Int) (debtor_id : Int) :
    Except DBError (Bool × DB) := do
  let d? ← scalarOneOrNone (db.debtors.filter
    (fun d => d.id == debtor_id && d.user_id == user_id))
  match d? with
  | none => return (false, db)
  | some d =>
    return (true,
      { db with
          debtors := db.debtors.filter (fun x => ¬ x.id = d.id),
          aliases := db.aliases.filter (fun a => ¬ a.debtor_id = d.id),
          transactions :=
            db.transactions.filter (fun t => ¬ t.debtor_id = d.id) })

/-! ### Deadline tracker (deadline_service.py) -/

/-- deadline_service.update_transaction_due_date: ownership-checked
update of the due_date column; returns none and leaves the state
unchanged when the ownership lookup finds nothing. -/
def update_transaction_due_date (db : DB) (user_id : Int)
    (transaction_id : Int) (due_date : Option Int) :
    Except DBError (Option Transaction × DB) := do
  let t? ← get_transaction_with_owner_check db user_id transaction_id
  match t? with
  | none => return (none, db)
  | some t =>
    let t' := { t with due_date := due_date }
    return (some t',
      { db with transactions :=
          db.transactions.map (fun u =>
            if u.id = t.id then { u with due_date := due_date } else u) })

/-- The due-date key a transaction sorts by; every row reaching the sort
has due_date set, the default covers the impossible NULL. -/
def dueOf (t : Transaction) : Int := t.due_date.getD 0

/-- ORDER BY due_date ASC, created_at ASC as a relation. -/
def dueLeR (a b : Transaction) : Prop :=
  dueOf a < dueOf b ∨ (dueOf a = dueOf b ∧ a.created_at ≤ b.created_at)

instance : DecidableRel dueLeR := fun a b => by
  unfold dueLeR
  infer_instance

instance : IsTotal Transaction dueLeR := by
  constructor
  intro a b
  rcases lt_trichotomy (dueOf a) (dueOf b) with h | h | h
  · exact Or.inl (Or.inl h)
  · rcases le_total a.created_at b.created_at with h2 | h2
    · exact Or.inl (Or.inr ⟨h, h2⟩)
    · exact Or.inr (Or.inr ⟨h.symm, h2⟩)
  · exact Or.inr (Or.inl h)

instance : IsTrans Transaction dueLeR := by
  constructor
  intro a b c h1 h2
  rcases h1 with h1 | ⟨h1e, h1c⟩
  · rcases h2 with h2 | ⟨h2e, _⟩
    · exact Or.inl (lt_trans h1 h2)
    · exact Or.inl (h2e ▸ h1)
  · rcases h2 with h2 | ⟨h2e, h2c⟩
    · exact Or.inl (h1e ▸ h2)
    · exact Or.inr ⟨h1e.trans h2e, le_trans h1c h2c⟩

/-- deadline_service.list_upcoming_deadlines before ordering and limit:
the user's transactions that have a due date, further restricted to
due_date at most now plus the day window when one is given. Time is
modelled in days, so the deadline now+timedelta(days=k) is now+k. -/
def upcomingRows (db : DB) (user_id : Int) (days : Option Int)
    (now : Int) : List Transaction :=
  let joined := (db.transactions.flatMap
    (fun t => (db.debtors.filter
      (fun d => t.debtor_id == d.id && d.user_id == user_id)).map
      (fun _ => t))).filter (fun t => t.due_date.isSome)
  match days with
  | none => joined
  | some k => joined.filter (fun t =>
      match t.due_date with
      | none => false
      | some v => v ≤ now + k)

/-- deadline_service.list_upcoming_deadlines: the filtered rows ordered
by due_date ascending then created_at ascending, truncated to limit. -/
def list_upcoming_deadlines (db : DB) (user_id : Int) (limit : Nat)
    (days : Option Int) (now : Int) : List Transaction :=
  (List.insertionSort dueLeR (upcomingRows db user_id days now)).take limit

/-! ### Debtor resolution (debtor_service.py) -/

/-- The join used by get_debtor_by_alias and by step 1 of resolve_debtor:
debtors joined with aliases on Alias.debtor_id == Debtor.id, filtered by
owning user and by the alias name ILIKE-matching the query (the raw
query string is the LIKE pattern). One row per matching alias. -/
def aliasJoinDebtors (db : DB) (user_id : Int) (name_query : String) :
    List Debtor :=
  (db.debtors.filter (fun d => d.user_id == user_id)).flatMap
    (fun d => (db.aliases.filter
      (fun a => a.debtor_id == d.id && ilike a.alias_name name_query)).map
      (fun _ => d))

/-- debtor_service.get_debtor_by_alias: scalar_one_or_none over the
alias join. -/
def get_debtor_by_alias (db : DB) (user_id : Int) (alias_name : String) :
    Except DBError (Option Debtor) :=
  scalarOneOrNone (aliasJoinDebtors db user_id alias_name)

/-- The debtor rows whose own name ILIKE-matches the query for the given
user (step 2 of resolve_debtor). -/
def nameMatchRows (db : DB) (user_id : Int) (name_query : String) :
    List Debtor :=
  db.debtors.filter (fun d => d.user_id == user_id && ilike d.name name_query)

/-- Descending-score comparison modelling the stable Python sort by
score with reverse=True. -/
def scoreGe (a b : Debtor × Nat) : Prop := b.2 ≤ a.2

instance : DecidableRel scoreGe := fun a b => by
  unfold scoreGe
  infer_instance

instance : IsTotal (Debtor × Nat) scoreGe :=
  ⟨fun a b => (Nat.le_total b.2 a.2).imp id id⟩

instance : IsTrans (Debtor × Nat) scoreGe :=
  ⟨fun _ _ _ h1 h2 => Nat.le_trans h2 h1⟩

/-- debtor_service.search_debtors_fuzzy: score every debtor of the user
by the maximum of the three fuzz scores of the lowercased query against
the lowercased debtor name, keep scores at least threshold, sort by
score descending. -/
def search_debtors_fuzzy (db : DB) (user_id : Int) (name_query : String)
    (threshold : Nat) : List (Debtor × Nat) :=
  let q := lowerL name_query
  let candidates := (db.debtors.filter (fun d => d.user_id == user_id)).filterMap
    (fun d =>
      let score := bestScore3 q (lowerL d.name)
      if threshold ≤ score then some (d, score) else none)
  List.insertionSort scoreGe candidates

/-- The aliases the ORM relationship Debtor.aliases loads for one
debtor. -/
def aliasesOf (db : DB) (d : Debtor) : List Alias :=
  db.aliases.filter (fun a => a.debtor_id == d.id)

/-- The alias-aware score of step 3 of resolve_debtor: start from the
name score and fold in the score of every alias, keeping the maximum. -/
def aliasAwareScore (db : DB) (q : List Char) (d : Debtor) : Nat :=
  (aliasesOf db d).foldl
    (fun acc a => max acc (bestScore3 q (lowerL a.alias_name)))
    (bestScore3 q (lowerL d.name))

/-- The candidate-collection loop of step 3 of resolve_debtor: walk the
debtors in row order, keep a debtor when its best score reaches the
threshold and its id has not been seen, remembering seen ids. -/
def fuzzyCollect (db : DB) (q : List Char) (threshold : Nat) :
    List Debtor → List Int → List (Debtor × Nat)
  | [], _ => []
  | d :: ds, seen =>
    let s := aliasAwareScore db q d
    if threshold ≤ s ∧ d.id ∉ seen then
      (d, s) :: fuzzyCollect db q threshold ds (d.id :: seen)
    else
      fuzzyCollect db q threshold ds seen

/-- The ranked alias-aware candidate list of step 3 of resolve_debtor:
collect over the user's debtors with the lowercased stripped query, then
sort by score descending. -/
def fuzzyCandsAliasAware (db : DB) (user_id : Int) (name_query : String)
    (threshold : Nat) : List (Debtor × Nat) :=
  let q := trimL (lowerL name_query)
  List.insertionSort scoreGe
    (fuzzyCollect db q threshold
      (db.debtors.filter (fun d => d.user_id == user_id)) [])

/-- debtor_service.resolve_debtor: layered resolution. Step 1 looks for
a single ILIKE alias match, step 2 for a single ILIKE debtor-name match,
step 3 runs the alias-aware fuzzy ranking; the first step that fires
returns, and an empty fuzzy list yields the none outcome. -/
def resolve_debtor (db : DB) (user_id : Int) (name_query : String)
    (threshold : Nat) :
    Except DBError (Option Debtor × List (Debtor × Nat) × String) := do
  let aliasMatch ← scalarOneOrNone (aliasJoinDebtors db user_id name_query)
  match aliasMatch with
  | some d => return (some d, [], "alias")
  | none =>
    let nameMatch ← scalarOneOrNone (nameMatchRows db user_id name_query)
    match nameMatch with
    | some d => return (some d, [], "name")
    | none =>
      let candidates := fuzzyCandsAliasAware db user_id name_query threshold
      if candidates.isEmpty then return (none, [], "none")
      else return (none, candidates, "fuzzy")

/-! ### Lemmas about the ledger -/

/-- Folding signed additions equals adding the sum of the signed
amounts. -/
theorem foldl_add_signedAmount (l : List Transaction) (a : Rat) :
    l.foldl (fun acc t => acc + signedAmount t) a =
      a + (l.map signedAmount).sum := by
  induction l generalizing a with
  | nil => simp
  | cons t ts ih => simp [ih, add_assoc]

/-- get_balance is the plain sum of signed amounts over the debtor's
transactions. -/
theorem get_balance_eq_sum (db : DB) (debtor_id : Int) :
    get_balance db debtor_id = ((txsOf db debtor_id).map signedAmount).sum := by
  unfold get_balance sqlSumSigned
  cases h : txsOf db debtor_id with
  | nil => simp
  | cons t ts => simp [foldl_add_signedAmount]

/-- The signed sum splits into the DEBT total minus the CREDIT total. -/
theorem sum_signedAmount_split (l : List Transaction) :
    (l.map signedAmount).sum =
      ((l.filter (fun t => t.type == TxType.DEBT)).map Transaction.amount).sum
      - ((l.filter (fun t => t.type == TxType.CREDIT)).map Transaction.amount).sum := by
  induction l with
  | nil => simp
  | cons t ts ih =>
    cases h : t.type <;>
      simp [signedAmount, h, ih, List.filter_cons] <;> ring

/-- Claim C2: for every debtor, get_balance equals the sum of amounts of
its DEBT transactions minus the sum of amounts of its CREDIT
transactions, in exact rational arithmetic; it is invariant under
permutation of the transaction log and is exactly zero for a debtor
with no transactions. -/
theorem balance_identity (db : DB) (debtor_id : Int) :
    (get_balance db debtor_id =
      (((txsOf db debtor_id).filter (fun t => t.type == TxType.DEBT)).map
          Transaction.amount).sum
      - (((txsOf db debtor_id).filter (fun t => t.type == TxType.CREDIT)).map
          Transaction.amount).sum)
    ∧ (txsOf db debtor_id = [] → get_balance db debtor_id = 0)
    ∧ (∀ db2 : DB, db2.transactions.Perm db.transactions →
        get_balance db2 debtor_id = get_balance db debtor_id) := by
  refine ⟨?_, ?_, ?_⟩
  · rw [get_balance_eq_sum, sum_signedAmount_split]
  · intro h
    rw [get_balance_eq_sum, h]
    simp
  · intro db2 hperm
    rw [get_balance_eq_sum, get_balance_eq_sum]
    exact List.Perm.sum_eq ((hperm.filter _).map _)

/-- Transactions used by the balance witness scenario. -/
def txDebt : Transaction :=
  { id := 1, debtor_id := 1, amount := 50000, type := TxType.DEBT }

/-- Credit transaction of the balance witness scenario. -/
def txCredit : Transaction :=
  { id := 2, debtor_id := 1, amount := 20000, type := TxType.CREDIT }

/-- Balance witness database: one debtor with a debt and a credit. -/
def dbBal : DB :=
  { debtors := [{ id := 1, user_id := 1, name := "Khanh Duy" }],
    transactions := [txDebt, txCredit] }

/-- The same database with the transaction log reversed. -/
def dbBalRev : DB := { dbBal with transactions := [txCredit, txDebt] }

/-- Witness for claim C2 at a concrete database: the zero-state branch
for a transaction-free debtor and the permutation-invariance branch for
the reversed log. -/
theorem balance_identity_witness :
    get_balance dbBal 2 = 0 ∧ get_balance dbBalRev 1 = get_balance dbBal 1 :=
  ⟨(balance_identity dbBal 2).2.1 (by decide),
   (balance_identity dbBal 1).2.2 dbBalRev (by decide)⟩

/-- Claim C3 counterexample: add_transaction called with the
non-positive amount -5 does not fail and does record a transaction (the
claim asserts a ValidationError and no recorded transaction). -/
theorem add_transaction_nonpositive_recorded :
    (-5 : Rat) ≤ 0
    ∧ (add_transaction { } 1 (-5) TxType.DEBT none none 1 0).2.transactions
        = [{ id := 1, debtor_id := 1, amount := -5, type := TxType.DEBT,
             note := none, group_id := none, created_at := 0,
             due_date := none }] := by
  constructor
  · norm_num
  · rfl

/-- Claim C3 as amended: add_transaction itself performs no amount
validation; for every amount, positive or not, it succeeds and appends
exactly one transaction carrying the given fields, and no balance
condition blocks the append (the non-positive-amount rejection lives in
the input parser upstream, not in this operation). -/
theorem add_transaction_appends_one (db : DB) (debtor_id : Int)
    (amount : Rat) (transaction_type : TxType) (note : Option String)
    (group_id : Option Int) (newId now : Int) :
    (add_transaction db debtor_id amount transaction_type note group_id
        newId now).2.transactions
      = db.transactions
        ++ [(add_transaction db debtor_id amount transaction_type note
              group_id newId now).1]
    ∧ (add_transaction db debtor_id amount transaction_type note group_id
        newId now).1
      = { id := newId, debtor_id := debtor_id, amount := amount,
          type := transaction_type, note := note, group_id := group_id,
          created_at := now, due_date := none }
    ∧ (add_transaction db debtor_id amount transaction_type note group_id
        newId now).2.debtors = db.debtors
    ∧ (add_transaction db debtor_id amount transaction_type note group_id
        newId now).2.aliases = db.aliases
    ∧ (add_transaction db debtor_id amount transaction_type note group_id
        newId now).2.users = db.users :=
  ⟨rfl, rfl, rfl, rfl, rfl⟩

/-- Membership in the aggregate rows of get_all_debtors_balance,
characterized through get_balance. -/
theorem mem_all_balances (db : DB) (user_id : Int)
    (row : String × Int × Rat) :
    row ∈ get_all_debtors_balance db user_id ↔
      ∃ d ∈ db.debtors, d.user_id = user_id
        ∧ row = (d.name, d.id, get_balance db d.id)
        ∧ get_balance db d.id ≠ 0 := by
  unfold get_all_debtors_balance
  rw [List.mem_insertionSort, List.mem_filterMap]
  constructor
  · rintro ⟨d, hd, hfd⟩
    rw [List.mem_filter] at hd
    refine ⟨d, hd.1, by simpa using hd.2, ?_⟩
    cases h : sqlSumSigned (txsOf db d.id) with
    | none => rw [h] at hfd; cases hfd
    | some b =>
      rw [h] at hfd
      dsimp only at hfd
      by_cases hb : b = 0
      · rw [if_pos hb] at hfd; cases hfd
      · rw [if_neg hb] at hfd
        have hbal : get_balance db d.id = b := by
          unfold get_balance; rw [h]; rfl
        cases hfd
        exact ⟨by rw [hbal], by rw [hbal]; exact hb⟩
  · rintro ⟨d, hd, hu, hrow, hnz⟩
    refine ⟨d, List.mem_filter.mpr ⟨hd, by simpa using hu⟩, ?_⟩
    cases h : sqlSumSigned (txsOf db d.id) with
    | none =>
      exfalso
      apply hnz
      unfold get_balance
      rw [h]
      rfl
    | some b =>
      have hbal : get_balance db d.id = b := by
        unfold get_balance; rw [h]; rfl
      dsimp only
      rw [if_neg (by rw [← hbal]; exact hnz)]
      rw [hrow, hbal]

/-- Claim C4: get_all_debtors_balance returns exactly the rows of the
user's debtors with non-zero balance, each carrying that debtor's name,
id and balance; the list is sorted by balance descending; and a debtor
with no transactions (balance zero) never appears. -/
theorem all_balances_spec (db : DB) (user_id : Int) :
    (∀ row ∈ get_all_debtors_balance db user_id,
      ∃ d ∈ db.debtors, d.user_id = user_id
        ∧ row = (d.name, d.id, get_balance db d.id)
        ∧ get_balance db d.id ≠ 0)
    ∧ (∀ d ∈ db.debtors, d.user_id = user_id → get_balance db d.id ≠ 0 →
        (d.name, d.id, get_balance db d.id) ∈ get_all_debtors_balance db user_id)
    ∧ List.Pairwise balGe (get_all_debtors_balance db user_id)
    ∧ (∀ d : Debtor, txsOf db d.id = [] →
        ∀ nm b, (nm, d.id, b) ∉ get_all_debtors_balance db user_id) := by
  refine ⟨?_, ?_, ?_, ?_⟩
  · intro row hrow
    exact (mem_all_balances db user_id row).mp hrow
  · intro d hd hu hnz
    exact (mem_all_balances db user_id _).mpr ⟨d, hd, hu, rfl, hnz⟩
  · exact List.sorted_insertionSort balGe _
  · intro d htx nm b hmem
    obtain ⟨d', _, _, hrow, hnz⟩ := (mem_all_balances db user_id _).mp hmem
    have hid : d'.id = d.id := by
      have := congrArg (fun r => r.2.1) hrow
      simpa using this.symm
    apply hnz
    rw [hid]
    unfold get_balance
    rw [htx]
    rfl

/-- Database of the all-balances witness scenario: debtor A with balance
30000, debtor B with no transactions, debtor C with balance -5000. -/
def dbAll : DB :=
  { debtors := [{ id := 1, user_id := 1, name := "A" },
                { id := 2, user_id := 1, name := "B" },
                { id := 3, user_id := 1, name := "C" }],
    transactions :=
      [{ id := 1, debtor_id := 1, amount := 30000, type := TxType.DEBT },
       { id := 2, debtor_id := 3, amount := 5000, type := TxType.CREDIT }] }

/-- Witness for claim C4: in the concrete scenario the positive-balance
debtor appears, and the transaction-free debtor is excluded. -/
theorem all_balances_spec_witness :
    ("A", 1, get_balance dbAll 1) ∈ get_all_debtors_balance dbAll 1
    ∧ ∀ nm b, (nm, (2 : Int), b) ∉ get_all_debtors_balance dbAll 1 := by
  constructor
  · refine (all_balances_spec dbAll 1).2.1
      { id := 1, user_id := 1, name := "A" } (by decide) rfl ?_
    rw [get_balance_eq_sum]
    norm_num [txsOf, dbAll, signedAmount]
  · intro nm b
    exact (all_balances_spec dbAll 1).2.2.2
      { id := 2, user_id := 1, name := "B" } (by decide) nm b

/-! ### Lemmas about the fuzzy ranking -/

/-- Every entry of search_debtors_fuzzy carries the score of its debtor
and that score reaches the threshold. -/
theorem mem_search_debtors_fuzzy {db : DB} {user_id : Int}
    {name_query : String} {threshold : Nat} {p : Debtor × Nat}
    (hp : p ∈ search_debtors_fuzzy db user_id name_query threshold) :
    p.2 = bestScore3 (lowerL name_query) (lowerL p.1.name)
    ∧ threshold ≤ p.2 := by
  unfold search_debtors_fuzzy at hp
  rw [List.mem_insertionSort, List.mem_filterMap] at hp
  obtain ⟨d, _, hfd⟩ := hp
  dsimp only at hfd
  by_cases h : threshold ≤ bestScore3 (lowerL name_query) (lowerL d.name)
  · rw [if_pos h] at hfd
    cases hfd
    exact ⟨rfl, h⟩
  · rw [if_neg h] at hfd
    cases hfd

/-- Every entry the collection loop of resolve_debtor emits carries the
alias-aware score of its debtor, that score reaches the threshold, and
the entry's id was not among the seen ids. -/
theorem mem_fuzzyCollect {db : DB} {q : List Char} {threshold : Nat} :
    ∀ {ds : List Debtor} {seen : List Int} {p : Debtor × Nat},
      p ∈ fuzzyCollect db q threshold ds seen →
      p.2 = aliasAwareScore db q p.1 ∧ threshold ≤ p.2 ∧ p.1.id ∉ seen := by
  intro ds
  induction ds with
  | nil => intro seen p hp; simp [fuzzyCollect] at hp
  | cons d ds ih =>
    intro seen p hp
    simp only [fuzzyCollect] at hp
    by_cases hc : threshold ≤ aliasAwareScore db q d ∧ d.id ∉ seen
    · rw [if_pos hc] at hp
      rcases List.mem_cons.mp hp with h | h
      · subst h
        exact ⟨rfl, hc.1, hc.2⟩
      · obtain ⟨h1, h2, h3⟩ := ih h
        exact ⟨h1, h2, fun hin => h3 (List.mem_cons_of_mem _ hin)⟩
    · rw [if_neg hc] at hp
      exact ih hp

/-- The ids the collection loop emits are pairwise distinct. -/
theorem fuzzyCollect_ids_nodup (db : DB) (q : List Char) (threshold : Nat) :
    ∀ (ds : List Debtor) (seen : List Int),
      ((fuzzyCollect db q threshold ds seen).map (fun p => p.1.id)).Nodup := by
  intro ds
  induction ds with
  | nil => intro seen; simp [fuzzyCollect]
  | cons d ds ih =>
    intro seen
    simp only [fuzzyCollect]
    by_cases hc : threshold ≤ aliasAwareScore db q d ∧ d.id ∉ seen
    · rw [if_pos hc]
      rw [List.map_cons, List.nodup_cons]
      refine ⟨?_, ih (d.id :: seen)⟩
      intro hmem
      rw [List.mem_map] at hmem
      obtain ⟨p, hp, hpid⟩ := hmem
      exact (mem_fuzzyCollect hp).2.2 (hpid ▸ List.mem_cons_self _ _)
    · rw [if_neg hc]
      exact ih seen

/-- A user debtor whose alias-aware score reaches the threshold is
emitted by the collection loop (given distinct ids and an id not yet
seen). -/
theorem fuzzyCollect_mem_of (db : DB) (q : List Char) (threshold : Nat) :
    ∀ (ds : List Debtor) (seen : List Int) (d : Debtor), d ∈ ds →
      (ds.map Debtor.id).Nodup → d.id ∉ seen →
      threshold ≤ aliasAwareScore db q d →
      (d, aliasAwareScore db q d) ∈ fuzzyCollect db q threshold ds seen := by
  intro ds
  induction ds with
  | nil => intro seen d hd; cases hd
  | cons d' ds ih =>
    intro seen d hd hnd hseen hthr
    rw [List.map_cons, List.nodup_cons] at hnd
    simp only [fuzzyCollect]
    rcases List.mem_cons.mp hd with rfl | hd'
    · rw [if_pos ⟨hthr, hseen⟩]
      exact List.mem_cons_self _ _
    · have hne : d.id ≠ d'.id := by
        intro he
        exact hnd.1 (he ▸ List.mem_map.mpr ⟨d, hd', rfl⟩)
      by_cases hc : threshold ≤ aliasAwareScore db q d' ∧ d'.id ∉ seen
      · rw [if_pos hc]
        refine List.mem_cons_of_mem _ (ih (d'.id :: seen) d hd' hnd.2 ?_ hthr)
        intro hin
        rcases List.mem_cons.mp hin with h | h
        · exact hne h
        · exact hseen h
      · rw [if_neg hc]
        exact ih seen d hd' hnd.2 hseen hthr

/-- Claim C5: for every threshold in [0,100] and every query, a debtor
whose best similarity score against the query is strictly below the
threshold never appears in the ranked candidate list, neither in the
name-only variant search_debtors_fuzzy nor in the alias-aware variant
used by step 3 of resolve_debtor. -/
theorem threshold_exclusion (db : DB) (user_id : Int) (name_query : String)
    (threshold : Nat) (h100 : threshold ≤ 100) (d : Debtor) :
    (bestScore3 (lowerL name_query) (lowerL d.name) < threshold →
      ∀ s, (d, s) ∉ search_debtors_fuzzy db user_id name_query threshold)
    ∧ (aliasAwareScore db (trimL (lowerL name_query)) d < threshold →
      ∀ s, (d, s) ∉ fuzzyCandsAliasAware db user_id name_query threshold) := by
  constructor
  · intro hlt s hmem
    obtain ⟨hs, hthr⟩ := mem_search_debtors_fuzzy hmem
    dsimp only at hs
    omega
  · intro hlt s hmem
    unfold fuzzyCandsAliasAware at hmem
    rw [List.mem_insertionSort] at hmem
    obtain ⟨hs, hthr, -⟩ := mem_fuzzyCollect hmem
    dsimp only at hs
    omega

/-- Witness database for the threshold-exclusion claim. -/
def dbThr : DB :=
  { debtors := [{ id := 1, user_id := 1, name := "Tuan" }],
    aliases := [{ id := 1, debtor_id := 1, alias_name := "Beo" }] }

/-- Witness for claim C5: the debtor scores 0 against an unrelated
query, hence appears in neither candidate list at threshold 60. -/
theorem threshold_exclusion_witness :
    (({ id := 1, user_id := 1, name := "Tuan" } : Debtor), 60) ∉
      search_debtors_fuzzy dbThr 1 "zzz" 60
    ∧ (({ id := 1, user_id := 1, name := "Tuan" } : Debtor), 60) ∉
      fuzzyCandsAliasAware dbThr 1 "zzz" 60 :=
  ⟨(threshold_exclusion dbThr 1 "zzz" 60 (by decide)
      { id := 1, user_id := 1, name := "Tuan" }).1 (by decide) 60,
   (threshold_exclusion dbThr 1 "zzz" 60 (by decide)
      { id := 1, user_id := 1, name := "Tuan" }).2 (by decide) 60⟩

/-- Claim C6: in the alias-aware candidate list every debtor id appears
at most once, every entry's score is the maximum similarity over the
debtor's own name and all its aliases, the list is sorted by score
descending, and every user debtor reaching the threshold appears (hence
a debtor whose name and alias both qualify appears exactly once, at its
maximum score). -/
theorem fuzzy_dedup_max_sorted (db : DB) (user_id : Int)
    (name_query : String) (threshold : Nat)
    (hnd : (db.debtors.map Debtor.id).Nodup) :
    ((fuzzyCandsAliasAware db user_id name_query threshold).map
        (fun p => p.1.id)).Nodup
    ∧ (∀ p ∈ fuzzyCandsAliasAware db user_id name_query threshold,
        p.2 = aliasAwareScore db (trimL (lowerL name_query)) p.1)
    ∧ List.Pairwise scoreGe (fuzzyCandsAliasAware db user_id name_query threshold)
    ∧ (∀ d ∈ db.debtors, d.user_id = user_id →
        threshold ≤ aliasAwareScore db (trimL (lowerL name_query)) d →
        (d, aliasAwareScore db (trimL (lowerL name_query)) d) ∈
          fuzzyCandsAliasAware db user_id name_query threshold) := by
  refine ⟨?_, ?_, ?_, ?_⟩
  · unfold fuzzyCandsAliasAware
    have hperm := (List.perm_insertionSort scoreGe
      (fuzzyCollect db (trimL (lowerL name_query)) threshold
        (db.debtors.filter (fun d => d.user_id == user_id)) [])).map
      (fun p => p.1.id)
    exact hperm.nodup_iff.mpr (fuzzyCollect_ids_nodup _ _ _ _ _)
  · intro p hp
    unfold fuzzyCandsAliasAware at hp
    rw [List.mem_insertionSort] at hp
    exact (mem_fuzzyCollect hp).1
  · exact List.sorted_insertionSort scoreGe _
  · intro d hd hu hthr
    unfold fuzzyCandsAliasAware
    rw [List.mem_insertionSort]
    refine fuzzyCollect_mem_of _ _ _ _ [] d ?_ ?_ ?_ hthr
    · exact List.mem_filter.mpr ⟨hd, by simpa using hu⟩
    · exact hnd.sublist ((List.filter_sublist _).map _)
    · simp

/-- Witness database for the dedup claim: the debtor's own name scores
100 and its alias also clears the threshold. -/
def dbDedup : DB :=
  { debtors := [{ id := 7, user_id := 1, name := "Tuan" }],
    aliases := [{ id := 1, debtor_id := 7, alias_name := "Tun" }] }

/-- Witness for claim C6: in the concrete scenario the debtor appears
(at its maximum score) and the output ids are duplicate-free. -/
theorem fuzzy_dedup_max_sorted_witness :
    (({ id := 7, user_id := 1, name := "Tuan" } : Debtor),
        aliasAwareScore dbDedup (trimL (lowerL "Tuan"))
          { id := 7, user_id := 1, name := "Tuan" }) ∈
      fuzzyCandsAliasAware dbDedup 1 "Tuan" 60
    ∧ ((fuzzyCandsAliasAware dbDedup 1 "Tuan" 60).map
        (fun p => p.1.id)).Nodup :=
  ⟨(fuzzy_dedup_max_sorted dbDedup 1 "Tuan" 60 (by decide)).2.2.2
      { id := 7, user_id := 1, name := "Tuan" } (by decide) rfl (by decide),
   (fuzzy_dedup_max_sorted dbDedup 1 "Tuan" 60 (by decide)).1⟩

/-! ### Ownership checks -/

/-- When no transaction with the given id is owned by the user, the
ownership join is empty. -/
theorem txOwnerRows_eq_nil {db : DB} {user_id transaction_id : Int}
    (h : ¬ ∃ t ∈ db.transactions, t.id = transaction_id ∧
        ∃ d ∈ db.debtors, t.debtor_id = d.id ∧ d.user_id = user_id) :
    txOwnerRows db user_id transaction_id = [] := by
  rw [List.eq_nil_iff_forall_not_mem]
  intro t hmem
  unfold txOwnerRows at hmem
  rw [List.mem_flatMap] at hmem
  obtain ⟨t', ht', hmem2⟩ := hmem
  rw [List.mem_map] at hmem2
  obtain ⟨d, hd, rfl⟩ := hmem2
  rw [List.mem_filter] at ht' hd
  apply h
  refine ⟨t', ht'.1, by simpa using ht'.2, d, hd.1, ?_, ?_⟩
  · have := hd.2
    simp only [Bool.and_eq_true, beq_iff_eq] at this
    exact this.1
  · have := hd.2
    simp only [Bool.and_eq_true, beq_iff_eq] at this
    exact this.2

/-- Claim C7: delete_transaction, delete_debtor_and_history and
update_transaction_due_date called with an id that does not exist for
the requesting user (missing id or owned by another user) return their
negative result without raising and leave the database unchanged, so
cross-user deletion or update is impossible. -/
theorem ownership_fail_closed (db : DB) (user_id transaction_id debtor_id : Int)
    (due_date : Option Int) :
    ((¬ ∃ t ∈ db.transactions, t.id = transaction_id ∧
        ∃ d ∈ db.debtors, t.debtor_id = d.id ∧ d.user_id = user_id) →
      delete_transaction db user_id transaction_id = Except.ok (false, db)
      ∧ update_transaction_due_date db user_id transaction_id due_date
          = Except.ok (none, db))
    ∧ ((¬ ∃ d ∈ db.debtors, d.id = debtor_id ∧ d.user_id = user_id) →
      delete_debtor_and_history db user_id debtor_id = Except.ok (false, db)) := by
  constructor
  · intro h
    have hrows := txOwnerRows_eq_nil h
    constructor
    · unfold delete_transaction get_transaction_with_owner_check
      rw [hrows]
      rfl
    · unfold update_transaction_due_date get_transaction_with_owner_check
      rw [hrows]
      rfl
  · intro h
    have hrows : db.debtors.filter
        (fun d => d.id == debtor_id && d.user_id == user_id) = [] := by
      rw [List.filter_eq_nil_iff]
      intro d hd hcond
      simp only [Bool.and_eq_true, beq_iff_eq] at hcond
      exact h ⟨d, hd, hcond.1, hcond.2⟩
    unfold delete_debtor_and_history
    rw [hrows]
    rfl

/-- Witness database for the ownership claim: one transaction whose
debtor belongs to user 2. -/
def dbOwn : DB :=
  { debtors := [{ id := 5, user_id := 2, name := "Mallory" }],
    transactions := [{ id := 9, debtor_id := 5, amount := 100,
                       type := TxType.DEBT }] }

/-- Witness for claim C7: user 1 cannot delete or update user 2's
transaction nor delete user 2's debtor; every call returns its negative
result with the state unchanged. -/
theorem ownership_fail_closed_witness :
    delete_transaction dbOwn 1 9 = Except.ok (false, dbOwn)
    ∧ update_transaction_due_date dbOwn 1 9 (some 3)
        = Except.ok (none, dbOwn)
    ∧ delete_debtor_and_history dbOwn 1 5 = Except.ok (false, dbOwn) :=
  ⟨((ownership_fail_closed dbOwn 1 9 5 (some 3)).1 (by decide)).1,
   ((ownership_fail_closed dbOwn 1 9 5 (some 3)).1 (by decide)).2,
   (ownership_fail_closed dbOwn 1 9 5 (some 3)).2 (by decide)⟩

/-! ### Deadlines -/

/-- Membership in the joined, not-null-filtered deadline rows: the
transaction occurs in the table, is owned by the user, and has a due
date. -/
theorem mem_deadlineJoin {db : DB} {user_id : Int} {u : Transaction} :
    (u ∈ (db.transactions.flatMap (fun t' => (db.debtors.filter
        (fun d => t'.debtor_id == d.id && d.user_id == user_id)).map
        (fun _ => t'))).filter (fun t' => t'.due_date.isSome)) ↔
      (u ∈ db.transactions ∧
        (∃ d ∈ db.debtors, u.debtor_id = d.id ∧ d.user_id = user_id) ∧
        u.due_date.isSome = true) := by
  rw [List.mem_filter, List.mem_flatMap]
  constructor
  · rintro ⟨⟨t', ht', hmem⟩, hsome⟩
    rw [List.mem_map] at hmem
    obtain ⟨d, hd, rfl⟩ := hmem
    rw [List.mem_filter] at hd
    have hcond := hd.2
    simp only [Bool.and_eq_true, beq_iff_eq] at hcond
    exact ⟨ht', ⟨d, hd.1, hcond.1, hcond.2⟩, hsome⟩
  · rintro ⟨hu, ⟨d, hd, hdid, huid⟩, hsome⟩
    refine ⟨⟨u, hu, ?_⟩, hsome⟩
    rw [List.mem_map]
    exact ⟨d, List.mem_filter.mpr ⟨hd, by simp [hdid, huid]⟩, rfl⟩

/-- Membership in the pre-limit deadline rows: in the table, owned by
the user, due date set, and inside the optional day window. -/
theorem mem_upcomingRows {db : DB} {user_id : Int} {days : Option Int}
    {now : Int} {t : Transaction} :
    t ∈ upcomingRows db user_id days now ↔
      t ∈ db.transactions ∧
      (∃ d ∈ db.debtors, t.debtor_id = d.id ∧ d.user_id = user_id) ∧
      t.due_date.isSome = true ∧
      (∀ k, days = some k → ∀ v, t.due_date = some v → v ≤ now + k) := by
  cases days with
  | none =>
    show t ∈ (db.transactions.flatMap _).filter _ ↔ _
    rw [mem_deadlineJoin]
    constructor
    · rintro ⟨h1, h2, h3⟩
      exact ⟨h1, h2, h3, by rintro k ⟨⟩⟩
    · rintro ⟨h1, h2, h3, -⟩
      exact ⟨h1, h2, h3⟩
  | some k =>
    show t ∈ ((db.transactions.flatMap _).filter _).filter _ ↔ _
    rw [List.mem_filter, mem_deadlineJoin]
    constructor
    · rintro ⟨⟨h1, h2, h3⟩, hwin⟩
      refine ⟨h1, h2, h3, ?_⟩
      rintro k' hk' v hv
      cases hk'
      rw [hv] at hwin
      simpa using hwin
    · rintro ⟨h1, h2, h3, hwin⟩
      refine ⟨⟨h1, h2, h3⟩, ?_⟩
      cases hv : t.due_date with
      | none => rw [hv] at h3; cases h3
      | some v =>
        have := hwin k rfl v hv
        simpa using this

/-- Claim C8: list_upcoming_deadlines returns only transactions of the
user's debtors with a due date set, restricted (when a day window is
given) to due dates at most now plus the window, with overdue
transactions passing a non-negative window unconditionally; the result
is sorted by due date ascending with ties broken by creation time
ascending, and has at most limit entries. -/
theorem upcoming_deadlines_spec (db : DB) (user_id : Int) (limit : Nat)
    (days : Option Int) (now : Int) :
    (∀ t ∈ list_upcoming_deadlines db user_id limit days now,
      (∃ d ∈ db.debtors, t.debtor_id = d.id ∧ d.user_id = user_id)
      ∧ t.due_date.isSome = true
      ∧ (∀ k, days = some k → ∀ v, t.due_date = some v → v ≤ now + k))
    ∧ (∀ k, days = some k → 0 ≤ k →
        ∀ t ∈ db.transactions,
          (∃ d ∈ db.debtors, t.debtor_id = d.id ∧ d.user_id = user_id) →
          ∀ v, t.due_date = some v → v ≤ now →
          t ∈ upcomingRows db user_id days now)
    ∧ List.Pairwise dueLeR (list_upcoming_deadlines db user_id limit days now)
    ∧ (list_upcoming_deadlines db user_id limit days now).length ≤ limit := by
  refine ⟨?_, ?_, ?_, ?_⟩
  · intro t ht
    unfold list_upcoming_deadlines at ht
    have ht2 := List.mem_of_mem_take ht
    rw [List.mem_insertionSort] at ht2
    obtain ⟨-, h2, h3, h4⟩ := mem_upcomingRows.mp ht2
    exact ⟨h2, h3, h4⟩
  · intro k hk hk0 t ht howned v hv hover
    refine mem_upcomingRows.mpr ⟨ht, howned, by rw [hv]; rfl, ?_⟩
    rintro k' hk' v' hv'
    cases hk
    cases hk'
    rw [hv] at hv'
    cases hv'
    omega
  · exact List.Pairwise.sublist (List.take_sublist _ _)
      (List.sorted_insertionSort dueLeR _)
  · exact List.length_take_le _ _

/-- Overdue transaction of the deadlines witness (due 98 < now 100). -/
def txDue : Transaction :=
  { id := 1, debtor_id := 1, amount := 100, type := TxType.DEBT,
    created_at := 50, due_date := some 98 }

/-- Deadline witness database holding that transaction for user 1. -/
def dbDue : DB :=
  { debtors := [{ id := 1, user_id := 1, name := "Tuan" }],
    transactions := [txDue] }

/-- Witness for claim C8: the overdue transaction passes the 7-day
window filter at now = 100. -/
theorem upcoming_deadlines_spec_witness :
    txDue ∈ upcomingRows dbDue 1 (some 7) 100 :=
  (upcoming_deadlines_spec dbDue 1 20 (some 7) 100).2.1 7 rfl (by decide)
    txDue (List.mem_cons_self _ _)
    ⟨{ id := 1, user_id := 1, name := "Tuan" }, List.mem_cons_self _ _,
      rfl, rfl⟩
    98 rfl (by decide)

/-! ### Resolver claims -/

/-- Debtor X of the wildcard counterexample: owner of the alias Beo. -/
def debtorX : Debtor := { id := 1, user_id := 1, name := "Xavier" }

/-- Debtor Y of the wildcard counterexample: literally named B%o. -/
def debtorY : Debtor := { id := 2, user_id := 1, name := "B%o" }

/-- The alias row Beo attached to debtor X. -/
def aliasBeo : Alias := { id := 1, debtor_id := 1, alias_name := "Beo" }

/-- Counterexample database: user 1 owns X (alias Beo) and Y (named
B%o). -/
def dbWild : DB := { debtors := [debtorX, debtorY], aliases := [aliasBeo] }

/-- Claim C1 counterexample: for the query B%o no alias is
case-insensitively equal to the query while debtor Y's own name is, so
the claim requires the name outcome (Y, [], name); the code instead
treats the query as a LIKE pattern, the alias Beo matches it, and
resolve returns (X, [], alias). -/
theorem resolve_exact_shadowed_by_pattern :
    resolve_debtor dbWild 1 "B%o" 60 = Except.ok (some debtorX, [], "alias")
    ∧ resolve_debtor dbWild 1 "B%o" 60 ≠ Except.ok (some debtorY, [], "name")
    ∧ dbWild.aliases = [aliasBeo]
    ∧ lowerL aliasBeo.alias_name ≠ lowerL "B%o"
    ∧ debtorY ∈ dbWild.debtors
    ∧ debtorY.user_id = 1
    ∧ lowerL debtorY.name = lowerL "B%o" := by
  refine ⟨by decide, by decide, rfl, by decide, ?_, rfl, by decide⟩
  exact List.mem_cons_of_mem _ (List.mem_cons_self _ _)

/-- Claim C1 as amended: resolve_debtor is a short-circuiting layered
decision whose exact steps match under case-insensitive LIKE with the
query as pattern (for wildcard-free queries this is case-insensitive
equality) and return only a uniquely matched row: if the alias join has
exactly one row the result is that debtor with kind alias; otherwise,
with no alias row, a unique name row yields that debtor with kind name;
only with no alias and no name row does the alias-aware fuzzy ranking
run, yielding kind fuzzy on a non-empty candidate list and kind none on
an empty one — fuzzy never fires when an exact LIKE signal exists. -/
theorem resolve_layered (db : DB) (user_id : Int) (name_query : String)
    (threshold : Nat) :
    (∀ d, aliasJoinDebtors db user_id name_query = [d] →
      resolve_debtor db user_id name_query threshold
        = Except.ok (some d, [], "alias"))
    ∧ (aliasJoinDebtors db user_id name_query = [] →
      ∀ d, nameMatchRows db user_id name_query = [d] →
        resolve_debtor db user_id name_query threshold
          = Except.ok (some d, [], "name"))
    ∧ (aliasJoinDebtors db user_id name_query = [] →
      nameMatchRows db user_id name_query = [] →
        (fuzzyCandsAliasAware db user_id name_query threshold ≠ [] →
          resolve_debtor db user_id name_query threshold
            = Except.ok (none,
                fuzzyCandsAliasAware db user_id name_query threshold,
                "fuzzy"))
        ∧ (fuzzyCandsAliasAware db user_id name_query threshold = [] →
          resolve_debtor db user_id name_query threshold
            = Except.ok (none, [], "none"))) := by
  refine ⟨?_, ?_, ?_⟩
  · intro d hrow
    unfold resolve_debtor
    rw [hrow]
    rfl
  · intro halias d hrow
    unfold resolve_debtor
    rw [halias]
    show (scalarOneOrNone (nameMatchRows db user_id name_query)).bind _
      = Except.ok (some d, [], "name")
    rw [hrow]
    rfl
  · intro halias hname
    constructor
    · intro hne
      unfold resolve_debtor
      rw [halias]
      show (scalarOneOrNone (nameMatchRows db user_id name_query)).bind _
        = Except.ok (none, _, "fuzzy")
      rw [hname]
      show (if (fuzzyCandsAliasAware db user_id name_query threshold).isEmpty
        then Except.ok ((none : Option Debtor), ([] : List (Debtor × Nat)),
          "none")
        else Except.ok (none, fuzzyCandsAliasAware db user_id name_query
          threshold, "fuzzy")) = _
      rw [if_neg (by simpa [List.isEmpty_iff] using hne)]
    · intro hemp
      unfold resolve_debtor
      rw [halias]
      show (scalarOneOrNone (nameMatchRows db user_id name_query)).bind _
        = Except.ok (none, [], "none")
      rw [hname]
      show (if (fuzzyCandsAliasAware db user_id name_query threshold).isEmpty
        then Except.ok ((none : Option Debtor), ([] : List (Debtor × Nat)),
          "none")
        else Except.ok (none, fuzzyCandsAliasAware db user_id name_query
          threshold, "fuzzy")) = _
      rw [if_pos (by simpa [List.isEmpty_iff] using hemp)]

/-- Witness for amended claim C1: with the single alias row Beo for the
query Beo, resolve returns debtor X with kind alias. -/
theorem resolve_layered_witness :
    resolve_debtor dbWild 1 "Beo" 60 = Except.ok (some debtorX, [], "alias") :=
  (resolve_layered dbWild 1 "Beo" 60).1 debtorX (by decide)

/-- Claim C9 (code bug): get_debtor_by_alias hands the raw query to SQL
ILIKE as a pattern, so the wildcard query B%o resolves to the alias Beo
even though the two strings are not equal ignoring case, contradicting
the documented case-insensitive exact alias match. -/
theorem alias_pattern_injection :
    get_debtor_by_alias dbWild 1 "B%o" = Except.ok (some debtorX)
    ∧ dbWild.aliases = [aliasBeo]
    ∧ lowerL aliasBeo.alias_name ≠ lowerL "B%o"
    ∧ ilike aliasBeo.alias_name "B%o" = true := by
  refine ⟨by decide, rfl, by decide, by decide⟩

/-- Claim C10: when the user owns two distinct debtors whose names are
both case-insensitively equal to the query and no alias row matches,
the exact-name step's single-row lookup raises MultipleResultsFound
instead of returning a resolution result. -/
theorem resolve_duplicate_names_raise (db : DB) (user_id : Int)
    (name_query : String) (threshold : Nat) (d1 d2 : Debtor)
    (halias : aliasJoinDebtors db user_id name_query = [])
    (h1 : d1 ∈ db.debtors) (h2 : d2 ∈ db.debtors) (hne : d1 ≠ d2)
    (hu1 : d1.user_id = user_id) (hu2 : d2.user_id = user_id)
    (hn1 : lowerL d1.name = lowerL name_query)
    (hn2 : lowerL d2.name = lowerL name_query) :
    resolve_debtor db user_id name_query threshold
      = Except.error DBError.multipleResultsFound := by
  have hmem : ∀ d : Debtor, d ∈ db.debtors → d.user_id = user_id →
      lowerL d.name = lowerL name_query →
      d ∈ nameMatchRows db user_id name_query := by
    intro d hd hu hn
    refine List.mem_filter.mpr ⟨hd, ?_⟩
    have hlike : ilike d.name name_query = true := by
      unfold ilike
      rw [hn]
      exact likeMatchL_self _
    simp [hu, hlike]
  have hm1 := hmem d1 h1 hu1 hn1
  have hm2 := hmem d2 h2 hu2 hn2
  unfold resolve_debtor
  rw [halias]
  show (scalarOneOrNone (nameMatchRows db user_id name_query)).bind _
    = Except.error DBError.multipleResultsFound
  cases hrows : nameMatchRows db user_id name_query with
  | nil => rw [hrows] at hm1; cases hm1
  | cons a t =>
    cases t with
    | nil =>
      rw [hrows] at hm1 hm2
      rcases List.mem_singleton.mp hm1 with rfl
      rcases List.mem_singleton.mp hm2 with h
      exact absurd h.symm hne
    | cons b t2 => rfl

/-- Database of the duplicate-name witness: user 1 owns Anna and ANNA. -/
def dbDup : DB :=
  { debtors := [{ id := 1, user_id := 1, name := "Anna" },
                { id := 2, user_id := 1, name := "ANNA" }] }

/-- Witness for claim C10: resolving the query anna among the
duplicate-named debtors raises MultipleResultsFound. -/
theorem resolve_duplicate_names_raise_witness :
    resolve_debtor dbDup 1 "anna" 60
      = Except.error DBError.multipleResultsFound :=
  resolve_duplicate_names_raise dbDup 1 "anna" 60
    { id := 1, user_id := 1, name := "Anna" }
    { id := 2, user_id := 1, name := "ANNA" }
    (by decide) (List.mem_cons_self _ _)
    (List.mem_cons_of_mem _ (List.mem_cons_self _ _))
    (by decide) rfl rfl (by decide) (by decide)

end Notoc
